import Mathlib

/-!
Verification of the SAP AI Core LLM streaming adapter
(`src/api/providers/sap-ai-core.ts` and `src/utils/ai-core/bas-llm-proxy.ts`).

The development shallowly embeds the adapter's pure logic:
JavaScript objects produced by `JSON.parse` are modelled by the `Json`
inductive together with an executable parser for the JSON fragment the
adapter consumes; filesystem reads, HTTP responses and SDK call results
are passed in explicitly as values; functions that can `throw` return
`Except String`.
-/

/-! ## A model of JavaScript JSON values and of `JSON.parse` -/

/-- JSON values as produced by `JSON.parse`.  Numbers are kept as a decimal
mantissa and exponent (value `mant * 10 ^ ex`), which is exact for every
numeral the adapter ever sees. -/
inductive Json where
  | null
  | bool (b : Bool)
  | num (mant : Int) (ex : Int)
  | str (s : String)
  | arr (elems : List Json)
  | obj (fields : List (String × Json))

/-- JavaScript truthiness of a JSON value (`if (v)`): `null`, `false`,
`0` and `""` are falsy; arrays and objects are always truthy. -/
def isTruthy : Json → Bool
  | Json.null => false
  | Json.bool b => b
  | Json.num m _ => decide (m ≠ 0)
  | Json.str s => decide (s ≠ "")
  | Json.arr _ => true
  | Json.obj _ => true

/-- Property access `v.k` on a parsed JSON value: defined on objects
(`JSON.parse` keeps the last duplicate key, hence `getLast?`), `undefined`
(`none`) on everything else. -/
def getField : Json → String → Option Json
  | Json.obj fs, k => ((fs.filter (fun p => p.1 == k)).getLast?).map (fun p => p.2)
  | _, _ => none

/-- Index access `v[i]` on a parsed JSON value. -/
def getIndex : Json → Nat → Option Json
  | Json.arr xs, i => xs.get? i
  | _, _ => none

/-- JSON whitespace. -/
def isWs (c : Char) : Bool := c == ' ' || c == '\t' || c == '\n' || c == '\r'

/-- Drop leading JSON whitespace. -/
def skipWs : List Char → List Char
  | [] => []
  | c :: cs => if isWs c then skipWs cs else c :: cs

/-- Match an exact literal and return the remaining input. -/
def dropLit : List Char → List Char → Option (List Char)
  | [], cs => some cs
  | _ :: _, [] => none
  | l :: ls, c :: cs => if l == c then dropLit ls cs else none

/-- Value of a hexadecimal digit. -/
def hexVal (c : Char) : Option Nat :=
  if c.isDigit then some (c.toNat - 48)
  else if 'a' ≤ c && c ≤ 'f' then some (c.toNat - 87)
  else if 'A' ≤ c && c ≤ 'F' then some (c.toNat - 55)
  else none

/-- Parse the body of a JSON string after the opening quote, handling the
escape sequences of RFC 8259; returns the string and the remaining input. -/
def parseStrChars : List Char → List Char → Option (String × List Char)
  | acc, '"' :: cs => some (String.mk acc.reverse, cs)
  | acc, '\\' :: e :: cs =>
    if e == '"' then parseStrChars ('"' :: acc) cs
    else if e == '\\' then parseStrChars ('\\' :: acc) cs
    else if e == '/' then parseStrChars ('/' :: acc) cs
    else if e == 'n' then parseStrChars ('\n' :: acc) cs
    else if e == 't' then parseStrChars ('\t' :: acc) cs
    else if e == 'r' then parseStrChars ('\r' :: acc) cs
    else if e == 'b' then parseStrChars ('\x08' :: acc) cs
    else if e == 'f' then parseStrChars ('\x0c' :: acc) cs
    else if e == 'u' then
      match cs with
      | h1 :: h2 :: h3 :: h4 :: cs2 =>
        match hexVal h1, hexVal h2, hexVal h3, hexVal h4 with
        | some a, some b, some c, some d =>
          parseStrChars (Char.ofNat (((a * 16 + b) * 16 + c) * 16 + d) :: acc) cs2
        | _, _, _, _ => none
      | _ => none
    else none
  | _, '\\' :: [] => none
  | acc, c :: cs => parseStrChars (c :: acc) cs
  | _, [] => none

/-- Numeric value of a digit run. -/
def digitsToNat (ds : List Char) : Nat := ds.foldl (fun acc c => acc * 10 + (c.toNat - 48)) 0

/-- Parse an optional exponent part (`e`/`E`, optional sign, digits). -/
def parseExpPart (cs : List Char) : Option (Int × List Char) :=
  match cs with
  | [] => some (0, [])
  | c :: rest =>
    if c == 'e' || c == 'E' then
      let signed : Bool × List Char :=
        match rest with
        | '+' :: r => (false, r)
        | '-' :: r => (true, r)
        | _ => (false, rest)
      let p := signed.2.span (fun d => d.isDigit)
      if p.1.isEmpty then none
      else some ((if signed.1 then -(digitsToNat p.1 : Int) else (digitsToNat p.1 : Int)), p.2)
    else some (0, c :: rest)

/-- Parse a JSON number (optional minus, integer part without a leading
zero, optional fraction, optional exponent). -/
def parseNumber (cs : List Char) : Option (Json × List Char) :=
  let sp : Bool × List Char := match cs with | '-' :: r => (true, r) | _ => (false, cs)
  let ip := sp.2.span (fun d => d.isDigit)
  if ip.1.isEmpty then none
  else if 1 < ip.1.length && ip.1.headD '0' == '0' then none
  else
    let fr : Option (List Char × List Char) :=
      match ip.2 with
      | '.' :: r =>
        let q := r.span (fun d => d.isDigit)
        if q.1.isEmpty then none else some (q.1, q.2)
      | _ => some ([], ip.2)
    match fr with
    | none => none
    | some (fds, rest2) =>
      match parseExpPart rest2 with
      | none => none
      | some (ex, rest3) =>
        let mant : Int := ((digitsToNat ip.1) * 10 ^ fds.length + digitsToNat fds : Nat)
        some (Json.num (if sp.1 then -mant else mant) (ex - fds.length), rest3)

mutual

/-- Parse one JSON value; the fuel argument only bounds recursion depth. -/
def parseVal : Nat → List Char → Option (Json × List Char)
  | 0, _ => none
  | fuel + 1, cs =>
    match skipWs cs with
    | [] => none
    | c :: rest =>
      if c == 'n' then (dropLit ['u', 'l', 'l'] rest).map (fun r => (Json.null, r))
      else if c == 't' then (dropLit ['r', 'u', 'e'] rest).map (fun r => (Json.bool true, r))
      else if c == 'f' then (dropLit ['a', 'l', 's', 'e'] rest).map (fun r => (Json.bool false, r))
      else if c == '"' then (parseStrChars [] rest).map (fun p => (Json.str p.1, p.2))
      else if c == '[' then
        match skipWs rest with
        | ']' :: r => some (Json.arr [], r)
        | cs2 => (parseArrItems fuel cs2).map (fun p => (Json.arr p.1, p.2))
      else if c == '\x7b' then
        match skipWs rest with
        | '\x7d' :: r => some (Json.obj [], r)
        | cs2 => (parseObjItems fuel cs2).map (fun p => (Json.obj p.1, p.2))
      else parseNumber (c :: rest)

/-- Parse the comma-separated items of a non-empty JSON array, including
the closing bracket. -/
def parseArrItems : Nat → List Char → Option (List Json × List Char)
  | 0, _ => none
  | fuel + 1, cs =>
    match parseVal fuel cs with
    | none => none
    | some (j, rest) =>
      match skipWs rest with
      | ',' :: r => (parseArrItems fuel r).map (fun p => (j :: p.1, p.2))
      | ']' :: r => some ([j], r)
      | _ => none

/-- Parse the comma-separated members of a non-empty JSON object,
including the closing brace. -/
def parseObjItems : Nat → List Char → Option (List (String × Json) × List Char)
  | 0, _ => none
  | fuel + 1, cs =>
    match skipWs cs with
    | '"' :: r =>
      match parseStrChars [] r with
      | none => none
      | some (k, r2) =>
        match skipWs r2 with
        | ':' :: r3 =>
          match parseVal fuel r3 with
          | none => none
          | some (v, r4) =>
            match skipWs r4 with
            | ',' :: r5 => (parseObjItems fuel r5).map (fun p => ((k, v) :: p.1, p.2))
            | '\x7d' :: r5 => some ([(k, v)], r5)
            | _ => none
        | _ => none
    | _ => none

end

/-- `JSON.parse` on a whole document: one value, then only trailing
whitespace; `none` models a thrown `SyntaxError`.  The fuel
`2 * length + 4` dominates the recursion depth, since every recursive
descent first consumes at least one input character. -/
def parseJson (s : String) : Option Json :=
  match parseVal (2 * s.length + 4) s.data with
  | some (j, rest) => if (skipWs rest).isEmpty then some j else none
  | none => none

/-! ## Credential loading (`loadAiCoreCredentials`) and setup (`setupAiCore`) -/

/-- Truthiness of the property `k` of `j` (`j.k` is falsy when the
property is absent). -/
def truthyField (j : Json) (k : String) : Bool :=
  match getField j k with
  | some v => isTruthy v
  | none => false

/-- Truthiness of `parsed.serviceurls.AI_API_URL`, evaluated only when
`parsed.serviceurls` is truthy. -/
def serviceUrlOk (parsed : Json) : Bool :=
  match getField parsed "serviceurls" with
  | some sv => truthyField sv "AI_API_URL"
  | none => false

/-- The `missingCredentials` list built by `loadAiCoreCredentials`:
each of `clientid`, `clientsecret`, `url` is pushed when falsy, then
`serviceurls` when falsy, else `serviceurls.AI_API_URL` when that is
falsy. -/
def missingCredentials (parsed : Json) : List String :=
  (if truthyField parsed "clientid" then [] else ["clientid"]) ++
  (if truthyField parsed "clientsecret" then [] else ["clientsecret"]) ++
  (if truthyField parsed "url" then [] else ["url"]) ++
  (if truthyField parsed "serviceurls" then
    (if serviceUrlOk parsed then [] else ["serviceurls.AI_API_URL"])
   else ["serviceurls"])

/-- The body of the `try` block after `JSON.parse` succeeded: throw the
enumerating message when fields are missing, otherwise return the
credentials (the source returns `JSON.stringify(parsed)`; we return the
parsed document itself, which carries the same information). -/
def credentialsCheck (parsed : Json) : Except String Json :=
  let missing := missingCredentials parsed
  if missing.isEmpty then Except.ok parsed
  else Except.error ("Credentials file is missing required properties: " ++ String.intercalate ", " missing)

/-- `loadAiCoreCredentials`, with the filesystem made explicit:
`fileExists` is `fs.existsSync(credsFilePath)` and `contents` is the file
text.  An absent file returns `undefined` (`none`); any throw inside the
`try` block — a `JSON.parse` failure or the missing-properties `Error` —
is caught by the single `catch`, which rethrows
`new Error("Failed to parse ai core credentials file:", e)` (whose
message is just that string, the second argument being an ignored
options bag). -/
def loadAiCoreCredentials (fileExists : Bool) (contents : String) : Except String (Option Json) :=
  if fileExists then
    let attempt : Except String Json :=
      match parseJson contents with
      | some parsed => credentialsCheck parsed
      | none => Except.error "SyntaxError"
    match attempt with
    | Except.ok v => Except.ok (some v)
    | Except.error _ => Except.error "Failed to parse ai core credentials file:"
  else Except.ok none

/-- The transport the constructor-time setup leaves the adapter with. -/
inductive Transport where
  | envCreds
  | basProxy
  | noTransport
deriving DecidableEq

/-- The value of the local `creds` variable in `setupAiCore`: the load
result, with any thrown error caught and only logged. -/
def credsOf (fileExists : Bool) (contents : String) : Option Json :=
  match loadAiCoreCredentials fileExists contents with
  | Except.ok c => c
  | Except.error _ => none

/-- `setupAiCore`, with the filesystem and the
`devspace.isBuildCode()` probe made explicit: install the credentials in
the environment when loaded, else fall back to the BAS LLM proxy inside
a build-code environment, else leave the adapter without a transport. -/
def setupAiCore (fileExists : Bool) (contents : String) (isBuildCode : Bool) : Transport :=
  match credsOf fileExists contents with
  | some _ => Transport.envCreds
  | none => if isBuildCode then Transport.basProxy else Transport.noTransport

/-! ## Model discovery (`getModelsFromSDK`) -/

/-- The `Model` interface exported by the provider module. -/
structure Model where
  id : String
  name : String
  provider : String
  capabilities : List String
  inputTypes : List String
  streamingSupported : Bool
  historySupported : Bool
  imageRecognitionSupported : Bool
deriving DecidableEq

/-- One entry of a model resource's `versions` array as used by the code. -/
structure ModelVersion where
  isLatest : Bool
  capabilities : Option (List String)
  inputTypes : Option (List String)
  streamingSupported : Bool
deriving DecidableEq

/-- One entry of a model resource's `allowedScenarios` array. -/
structure ScenarioRef where
  scenarioId : String
deriving DecidableEq

/-- One model resource record returned by the discovery endpoint. -/
structure ModelResource where
  model : String
  provider : Option String
  displayName : Option String
  name : String
  versions : List ModelVersion
  allowedScenarios : List ScenarioRef
deriving DecidableEq

/-- Does `pat` occur at the head of `s`?  (Also models
`String.prototype.startsWith` below.) -/
def leadMatch : List Char → List Char → Bool
  | [], _ => true
  | _ :: _, [] => false
  | p :: ps, c :: cs => p == c && leadMatch ps cs

/-- Does `pat` occur anywhere in `s`? -/
def hasSubstring (pat : List Char) : List Char → Bool
  | [] => pat.isEmpty
  | c :: cs => leadMatch pat (c :: cs) || hasSubstring pat cs

/-- `String.prototype.includes`. -/
def jsIncludes (s pat : String) : Bool := hasSubstring pat.data s.data

/-- JavaScript `a || b` on an optional string: the default applies to
`undefined` and to the falsy empty string alike. -/
def jsOr (a : Option String) (b : String) : String :=
  match a with
  | some s => if s = "" then b else s
  | none => b

/-- Primary collation weight of a character under the default (root/`en`)
ICU collation used by `String.prototype.localeCompare` in Node, restricted
to ASCII: letters compare case-insensitively. -/
def localePrim (c : Char) : Nat := if c.isUpper then c.toNat + 32 else c.toNat

/-- Tertiary collation weight: at equal letters, lowercase sorts before
uppercase. -/
def localeTert (c : Char) : Nat := if c.isUpper then 1 else 0

/-- Strict lexicographic order on weight lists. -/
def natListLt : List Nat → List Nat → Bool
  | [], [] => false
  | [], _ :: _ => true
  | _ :: _, [] => false
  | a :: as, b :: bs => decide (a < b) || (decide (a = b) && natListLt as bs)

/-- The collation key of a string: primary weights, then tertiary
weights. -/
def collKey (s : String) : List Nat × List Nat := (s.data.map localePrim, s.data.map localeTert)

/-- Strict order on collation keys: by primary weights, ties broken by
tertiary weights. -/
def keyLt (x y : List Nat × List Nat) : Bool :=
  natListLt x.1 y.1 || (decide (x.1 = y.1) && natListLt x.2 y.2)

/-- A model of `a.localeCompare(b)` under Node's default ICU collation,
restricted to the ASCII strings the provider names use. -/
def localeCompare (a b : String) : Int :=
  if keyLt (collKey a) (collKey b) then -1 else if keyLt (collKey b) (collKey a) then 1 else 0

/-- The comparator passed to `.sort`: `a` may stay before `b` exactly when
`a.provider.localeCompare(b.provider) <= 0`. -/
def providerLe (a b : Model) : Prop := localeCompare a.provider b.provider ≤ 0

instance providerLe.decidableRel : DecidableRel providerLe :=
  fun a b => inferInstanceAs (Decidable (localeCompare a.provider b.provider ≤ 0))

/-- A fallback value for `model.versions[0]` on an empty `versions` array;
unreachable for the resources that survive the filter, which always have a
version flagged latest. -/
def defaultVersion : ModelVersion := ⟨false, none, none, false⟩

/-- `model.versions.find((v) => v.isLatest === true) || model.versions[0]`. -/
def latestVersionOf (m : ModelResource) : ModelVersion :=
  match m.versions.find? (fun v => v.isLatest) with
  | some v => v
  | none => m.versions.headD defaultVersion

/-- The per-resource mapping step of `getModelsFromSDK`. -/
def formatModel (m : ModelResource) : Model :=
  let latestVersion := latestVersionOf m
  { id := m.model
    name := jsOr m.displayName m.name
    provider := jsOr m.provider "SAP"
    capabilities := latestVersion.capabilities.getD []
    inputTypes := latestVersion.inputTypes.getD []
    streamingSupported := if jsIncludes m.model "meta" then false else latestVersion.streamingSupported
    historySupported := !(jsIncludes m.model "abap")
    imageRecognitionSupported := (latestVersion.capabilities.getD []).contains "image-recognition" }

/-- The filter of `getModelsFromSDK`: keep resources allowed for the
`orchestration` scenario whose latest version advertises
`text-generation`. -/
def orchestrationFilter (m : ModelResource) : Bool :=
  m.allowedScenarios.any (fun s => s.scenarioId == "orchestration") &&
  m.versions.any (fun v => v.isLatest && (v.capabilities.getD []).contains "text-generation")

/-- `getModelsFromSDK`, with the discovery response passed in as
`resources`: filter, map to the `Model` shape, and sort with the
`localeCompare` comparator (`Array.prototype.sort` is stable, so a stable
insertion sort models it exactly). -/
def getModelsFromSDK (resources : List ModelResource) : List Model :=
  List.insertionSort providerLe ((resources.filter orchestrationFilter).map formatModel)

/-! ## Message normalization (`convertMessageParamToSAPMessages`) -/

/-- One content part of an incoming message: a `text` part, an `image`
part (whose runtime object may carry `image_url.url`, a legacy `image`
field, and `image_url.detail`), or a part with any other `type` tag. -/
inductive ContentPart where
  | text (s : String)
  | image (imageUrlUrl : Option String) (imageField : Option String) (detail : Option String)
  | other (tag : String)
deriving DecidableEq

/-- An incoming message: a role string and either string content or a
list of content parts. -/
structure InMessage where
  role : String
  content : String ⊕ List ContentPart

/-- A converted content part in the SAP orchestration dialect. -/
inductive OutPart where
  | text (s : String)
  | imageUrl (url : String) (detail : String)
deriving DecidableEq

/-- A converted message. -/
structure OutMessage where
  role : String
  content : String ⊕ List OutPart

/-- The roles the converter keeps (`user`, `assistant`, `system`, `tool`,
`function`). -/
def supportedRole (r : String) : Bool :=
  r == "user" || r == "assistant" || r == "system" || r == "tool" || r == "function"

/-- Conversion of one content part: `text` passes through, `image` is
rewritten to the `image_url` shape with the nullish-coalescing defaults
(`image_url?.url ?? image ?? ""`, `image_url?.detail ?? "auto"`), and any
other tag throws `Unsupported message type`. -/
def convertPart : ContentPart → Except String OutPart
  | ContentPart.text s => Except.ok (OutPart.text s)
  | ContentPart.image u i d => Except.ok (OutPart.imageUrl (u.getD (i.getD "")) (d.getD "auto"))
  | ContentPart.other tag => Except.error ("Unsupported message type: " ++ tag)

/-- Left-to-right conversion of a part list, stopping at the first
throw (as `Array.prototype.map` does). -/
def convertParts : List ContentPart → Except String (List OutPart)
  | [] => Except.ok []
  | p :: ps => do
    let h ← convertPart p
    let t ← convertParts ps
    Except.ok (h :: t)

/-- The `.map` body: a supported role keeps its role and converts its
content; an unsupported role yields `null`. -/
def convertMessage (m : InMessage) : Except String (Option OutMessage) :=
  if supportedRole m.role then
    match m.content with
    | Sum.inl s => Except.ok (some ⟨m.role, Sum.inl s⟩)
    | Sum.inr parts => do
      let ps ← convertParts parts
      Except.ok (some ⟨m.role, Sum.inr ps⟩)
  else Except.ok none

/-- The `.map` pass over the whole message list. -/
def convertAll : List InMessage → Except String (List (Option OutMessage))
  | [] => Except.ok []
  | m :: ms => do
    let h ← convertMessage m
    let t ← convertAll ms
    Except.ok (h :: t)

/-- `convertMessageParamToSAPMessages`: map every message, then
`.filter((message) => message !== null)`. -/
def convertMessageParamToSAPMessages (ms : List InMessage) : Except String (List OutMessage) :=
  (convertAll ms).map (fun l => l.filterMap id)

/-! ## `createMessage` -/

/-- The single normalized output event shape of the adapter. -/
inductive ApiStreamEvent where
  | text (s : String)
deriving DecidableEq

/-- What the constructor leaves in `formattedModels`: the fetched list on
success, the `[]` fail-safe installed by the `.catch` handler on
failure. -/
def modelsAfterFetch : Except String (List Model) → List Model
  | Except.ok ms => ms
  | Except.error _ => []

/-- The `streaming` flag of `createMessage`:
`formattedModels.find((m) => m.id === model.id)?.streamingSupported ?? false`. -/
def streamingFlag (models : List Model) (modelId : String) : Bool :=
  match models.find? (fun m => m.id == modelId) with
  | some m => m.streamingSupported
  | none => false

/-- The streaming branch: one event per chunk whose
`getDeltaContent()` is truthy. -/
def streamEvents (deltas : List (Option String)) : List ApiStreamEvent :=
  deltas.filterMap (fun d =>
    match d with
    | some s => if s = "" then none else some (ApiStreamEvent.text s)
    | none => none)

/-- The buffered branch: a single event carrying `response.getContent()`
when that is truthy, nothing otherwise. -/
def bufferedEvents : Option String → List ApiStreamEvent
  | some s => if s = "" then [] else [ApiStreamEvent.text s]
  | none => []

/-- The event sequence `createMessage` yields once the backend replied:
branch on the cached `streamingSupported` flag, then emit per-chunk
deltas or the single buffered content. -/
def createMessageEvents (models : List Model) (modelId : String)
    (streamDeltas : List (Option String)) (bufferedContent : Option String) : List ApiStreamEvent :=
  if streamingFlag models modelId then streamEvents streamDeltas else bufferedEvents bufferedContent

/-- `createMessage` including the message normalization it performs while
building the backend request, before any event is yielded: a conversion
throw escapes the generator and no event is produced. -/
def createMessageRun (models : List Model) (modelId : String) (msgs : List InMessage)
    (streamDeltas : List (Option String)) (bufferedContent : Option String) :
    Except String (List ApiStreamEvent) :=
  match convertMessageParamToSAPMessages msgs with
  | Except.error e => Except.error e
  | Except.ok _ => Except.ok (createMessageEvents models modelId streamDeltas bufferedContent)

/-! ## The BAS LLM proxy (`bas-llm-proxy.ts`) and its SSE stream -/

/-- `String.prototype.startsWith`. -/
def strStartsWith (s pre : String) : Bool := leadMatch pre.data s.data

/-- `String.prototype.slice(6)` on an ASCII SSE line. -/
def strDrop (s : String) (n : Nat) : String := String.mk (s.data.drop n)

/-- `String.prototype.trim`. -/
def strTrim (s : String) : String :=
  String.mk (((s.data.dropWhile isWs).reverse.dropWhile isWs).reverse)

/-- The readline loop of `llmRequestBASProxy` over the SSE body: only
`data: ` lines are considered; `[DONE]` breaks; any other payload is
`JSON.parse`d — on failure the error is logged and the line skipped — and
a truthy `choices[0].delta.content` is yielded. -/
def processLines : List String → List Json
  | [] => []
  | line :: rest =>
    if strStartsWith line "data: " then
      let data := strTrim (strDrop line 6)
      if data == "[DONE]" then []
      else
        match parseJson data with
        | some parsed =>
          match ((((getField parsed "choices").bind (fun c => getIndex c 0)).bind
              (fun c0 => getField c0 "delta")).bind (fun d => getField d "content")) with
          | some delta => if isTruthy delta then delta :: processLines rest else processLines rest
          | none => processLines rest
        | none => processLines rest
    else processLines rest

/-- The HTTP completion response, as far as `requestCompletion` inspects
it: a status code and the SSE body lines. -/
structure HttpResponse where
  status : Nat
  body : List String

/-- `BASLLMProxy.requestCompletion`, with the `axios.post` outcome passed
in: a thrown request error is caught and logged, a non-200 status is
logged, and both paths return `undefined`; only a 200 response yields the
body stream. -/
def requestCompletion (outcome : Except String HttpResponse) : Option (List String) :=
  match outcome with
  | Except.error _ => none
  | Except.ok r => if r.status == 200 then some r.body else none

/-- `llmRequestBASProxy` given the `requestCompletion` result: an absent
response ends the generator with no events, otherwise the SSE body is
streamed through `processLines`. -/
def llmRequestBASProxy (response : Option (List String)) : List Json :=
  match response with
  | none => []
  | some lines => processLines lines

/-- `rg = resourceGroup || "default"` (the empty string is falsy). -/
def jsDefaultRg (resourceGroup : Option String) : String :=
  match resourceGroup with
  | some s => if s = "" then "default" else s
  | none => "default"

/-- `BASLLMProxy.getDeployments`, with the class-static cache
`BASLLMProxy.deployments` threaded explicitly (it is shared by every
instance) and the deployment fetch passed in as a function of the
resource group actually sent: returns the value returned to the caller
(which is also the new cache) and whether an HTTP request was issued.
The guard is `!deployments || deployments.length === 0`, so a `none`
(falsy) or empty cache triggers a fetch that stores
`response.data && response.data.resources`. -/
def getDeployments (cache : Option (List Json)) (resourceGroup : Option String)
    (fetch : String → Option (List Json)) : Option (List Json) × Bool :=
  match cache with
  | some l =>
    if l.isEmpty then (fetch (jsDefaultRg resourceGroup), true)
    else (some l, false)
  | none => (fetch (jsDefaultRg resourceGroup), true)

/-! ## The spec's claimed output order, and concrete inputs used in the
theorems below -/

/-- Modelled from the spec: the order the spec's words "ascending,
case-sensitive" denote — plain code-point comparison of provider names,
stated here so it can be compared with the order the code actually
produces.  `a` is allowed before `b` when `b` is not strictly below `a`
in code-point lexicographic order. -/
def codepointLe (a b : String) : Bool :=
  !natListLt (b.data.map Char.toNat) (a.data.map Char.toNat)

/-- Is a model list pairwise ordered by `le` on provider names? -/
def sortedByProvider (le : String → String → Bool) : List Model → Bool
  | [] => true
  | [_] => true
  | a :: b :: t => le a.provider b.provider && sortedByProvider le (b :: t)

/-- A credentials file that is valid JSON and carries `clientid`,
`clientsecret` and `url`, and a `serviceurls` object without
`AI_API_URL`. -/
def c1File : String :=
  "\x7b\"clientid\":\"id\",\"clientsecret\":\"secret\",\"url\":\"https://auth.example\",\"serviceurls\":\x7b\x7d\x7d"

/-- A discovery resource with provider `Banana` (the model id contains
`meta`, exercising the streaming deny-list too). -/
def rBanana : ModelResource :=
  ⟨"meta-llama3", some "Banana", none, "Llama", [⟨true, some ["text-generation"], none, true⟩],
    [⟨"orchestration"⟩]⟩

/-- A discovery resource with provider `apple`. -/
def rApple : ModelResource :=
  ⟨"gpt-alpha", some "apple", none, "Alpha", [⟨true, some ["text-generation"], none, true⟩],
    [⟨"orchestration"⟩]⟩

/-- A model whose cached `streamingSupported` flag is false. -/
def bufferedModel : Model := ⟨"m-buffered", "M", "SAP", [], [], false, true, false⟩

/-- A valid SSE data line whose delta content is `Hello`. -/
def c8Line1 : String := "data: \x7b\"choices\":[\x7b\"delta\":\x7b\"content\":\"Hello\"\x7d\x7d]\x7d"

/-- A valid SSE data line whose delta content is `world`. -/
def c8Line2 : String := "data: \x7b\"choices\":[\x7b\"delta\":\x7b\"content\":\"world\"\x7d\x7d]\x7d"

/-! ## Order-theoretic facts about the locale comparator -/
/-! ## Order-theoretic facts about the locale comparator -/

theorem natListLt_irrefl : ∀ l, natListLt l l = false := by
  intro l
  induction l with
  | nil => rfl
  | cons a as ih => simp [natListLt, ih]

theorem natListLt_asymm : ∀ a b, natListLt a b = true → natListLt b a = false := by
  intro a
  induction a with
  | nil =>
    intro b hab
    cases b with
    | nil => simp [natListLt] at hab
    | cons y ys => simp [natListLt]
  | cons x xs ih =>
    intro b hab
    cases b with
    | nil => simp [natListLt] at hab
    | cons y ys =>
      simp [natListLt] at hab ⊢
      rcases hab with h | ⟨he, h⟩
      · exact ⟨by omega, fun hyx => by omega⟩
      · subst he
        exact ⟨by omega, fun _ => ih ys h⟩

theorem natListLt_trans : ∀ a b c, natListLt a b = true → natListLt b c = true → natListLt a c = true := by
  intro a
  induction a with
  | nil =>
    intro b c hab hbc
    cases b with
    | nil => simp [natListLt] at hab
    | cons y ys =>
      cases c with
      | nil => simp [natListLt] at hbc
      | cons z zs => simp [natListLt]
  | cons x xs ih =>
    intro b c hab hbc
    cases b with
    | nil => simp [natListLt] at hab
    | cons y ys =>
      cases c with
      | nil => simp [natListLt] at hbc
      | cons z zs =>
        simp [natListLt] at hab hbc ⊢
        rcases hab with h1 | ⟨he1, h1⟩
        · rcases hbc with h2 | ⟨he2, h2⟩
          · exact Or.inl (by omega)
          · exact Or.inl (by omega)
        · subst he1
          rcases hbc with h2 | ⟨he2, h2⟩
          · exact Or.inl h2
          · exact Or.inr ⟨he2, ih ys zs h1 h2⟩

theorem natListLt_conn : ∀ a b, natListLt a b = false → natListLt b a = false → a = b := by
  intro a
  induction a with
  | nil =>
    intro b hab _
    cases b with
    | nil => rfl
    | cons y ys => simp [natListLt] at hab
  | cons x xs ih =>
    intro b hab hba
    cases b with
    | nil => simp [natListLt] at hba
    | cons y ys =>
      simp [natListLt] at hab hba
      have hxy : x = y := by omega
      subst hxy
      have := ih ys (hab.2 rfl) (hba.2 rfl)
      rw [this]

theorem keyLt_asymm (x y : List Nat × List Nat) : keyLt x y = true → keyLt y x = false := by
  intro h
  simp [keyLt] at h ⊢
  rcases h with h | ⟨he, h⟩
  · refine ⟨natListLt_asymm _ _ h, fun hyx => ?_⟩
    rw [hyx] at h
    simp [natListLt_irrefl] at h
  · rw [← he]
    exact ⟨natListLt_irrefl _, fun _ => natListLt_asymm _ _ h⟩

theorem keyLt_trans (x y z : List Nat × List Nat) :
    keyLt x y = true → keyLt y z = true → keyLt x z = true := by
  intro h1 h2
  simp [keyLt] at h1 h2 ⊢
  rcases h1 with h1 | ⟨he1, h1⟩
  · rcases h2 with h2 | ⟨he2, h2⟩
    · exact Or.inl (natListLt_trans _ _ _ h1 h2)
    · exact Or.inl (he2 ▸ h1)
  · rcases h2 with h2 | ⟨he2, h2⟩
    · exact Or.inl (he1 ▸ h2)
    · exact Or.inr ⟨he1.trans he2, natListLt_trans _ _ _ h1 h2⟩

theorem keyLt_conn (x y : List Nat × List Nat) :
    keyLt x y = false → keyLt y x = false → x = y := by
  intro h1 h2
  simp [keyLt] at h1 h2
  have e1 : x.1 = y.1 := natListLt_conn _ _ h1.1 h2.1
  have e2 : x.2 = y.2 := natListLt_conn _ _ (h1.2 e1) (h2.2 e1.symm)
  exact Prod.ext e1 e2

/-- The comparator result is nonpositive exactly when `b`'s collation key
is not strictly below `a`'s. -/
theorem localeCompare_le_zero (a b : String) :
    localeCompare a b ≤ 0 ↔ keyLt (collKey b) (collKey a) = false := by
  unfold localeCompare
  split_ifs with h1 h2
  · simp [keyLt_asymm _ _ h1]
  · simp [h2]
  · simp [h2]

instance providerLe.isTotal : IsTotal Model providerLe := by
  constructor
  intro a b
  rw [providerLe, providerLe, localeCompare_le_zero, localeCompare_le_zero]
  cases h : keyLt (collKey b.provider) (collKey a.provider)
  · exact Or.inl rfl
  · exact Or.inr (keyLt_asymm _ _ h)

instance providerLe.isTrans : IsTrans Model providerLe := by
  constructor
  intro a b c h1 h2
  rw [providerLe, localeCompare_le_zero] at h1 h2 ⊢
  cases hab : keyLt (collKey a.provider) (collKey b.provider)
  · have := keyLt_conn _ _ hab h1
    rw [← this] at h2
    exact h2
  · cases hca : keyLt (collKey c.provider) (collKey a.provider)
    · rfl
    · have := keyLt_trans _ _ _ hca hab
      simp [h2] at this

/-! ## Claim theorems -/

/-- C1: the claim says credential loading raises an error whose message
enumerates every missing field, and for a file missing only
`serviceurls.AI_API_URL` names exactly that field.  The code does build
exactly that enumerating message, but the `throw` sits inside the same
`try` block as `JSON.parse`, so the function's own `catch` swallows it
and rethrows the generic parse error: the enumerating message never
reaches the caller. -/
theorem c1_missing_field_report_swallowed :
    (parseJson c1File).map missingCredentials = some ["serviceurls.AI_API_URL"] ∧
    (parseJson c1File).map credentialsCheck =
      some (Except.error "Credentials file is missing required properties: serviceurls.AI_API_URL") ∧
    loadAiCoreCredentials true c1File = Except.error "Failed to parse ai core credentials file:" :=
  ⟨rfl, rfl, rfl⟩

/-- C3 counterexample: a credentials file that is present but invalid
(here: not JSON at all) makes `loadAiCoreCredentials` throw, yet inside a
build-code environment `setupAiCore` still falls back to the BAS proxy
transport, contradicting the claim that the fallback is taken only when
the file is absent. -/
theorem c3_counterexample_invalid_file_falls_back :
    loadAiCoreCredentials true "not json" = Except.error "Failed to parse ai core credentials file:" ∧
    setupAiCore true "not json" true = Transport.basProxy :=
  ⟨rfl, rfl⟩

/-- C3 (amended): the fallback to the BAS proxy transport is taken
exactly when credential loading produced no credentials — whether the
file is absent or present but invalid, the thrown error being caught and
only logged — and the process runs in a recognized managed-build
environment. -/
theorem c3_proxy_fallback_iff_no_creds (fileExists : Bool) (contents : String) (isBuildCode : Bool) :
    setupAiCore fileExists contents isBuildCode = Transport.basProxy ↔
      credsOf fileExists contents = none ∧ isBuildCode = true := by
  unfold setupAiCore
  cases h : credsOf fileExists contents <;> cases isBuildCode <;> simp

/-- C6: when the one-time model discovery fetch fails, the constructor's
`.catch` installs the empty model list; against that cache every
capability lookup yields `streamingSupported = false`, and `createMessage`
takes the buffered path instead of throwing. -/
theorem c6_fetch_failure_buffered_default (err : String) (modelId : String)
    (streamDeltas : List (Option String)) (bufferedContent : Option String) :
    modelsAfterFetch (Except.error err) = [] ∧
    streamingFlag (modelsAfterFetch (Except.error err)) modelId = false ∧
    createMessageEvents (modelsAfterFetch (Except.error err)) modelId streamDeltas bufferedContent
      = bufferedEvents bufferedContent :=
  ⟨rfl, rfl, rfl⟩

/-- C9: when the proxy's completion request throws or returns a non-200
status, `requestCompletion` returns `undefined` after logging, and
`llmRequestBASProxy` then completes with zero events instead of raising
the transport failure to the stream's caller. -/
theorem c9_transport_failure_yields_no_events (outcome : Except String HttpResponse)
    (h : ∀ r, outcome = Except.ok r → r.status ≠ 200) :
    requestCompletion outcome = none ∧
    llmRequestBASProxy (requestCompletion outcome) = [] := by
  cases outcome with
  | error e => exact ⟨rfl, rfl⟩
  | ok r =>
    have hr : (r.status == 200) = false := by simpa using h r rfl
    constructor <;> simp [requestCompletion, llmRequestBASProxy, hr]

/-- C9 witness: a thrown request and a 500 response both produce an
absent stream and an event-free completion. -/
theorem c9_transport_failure_yields_no_events_witness :
    (requestCompletion (Except.error "connect ECONNREFUSED") = none ∧
      llmRequestBASProxy (requestCompletion (Except.error "connect ECONNREFUSED")) = []) ∧
    (requestCompletion (Except.ok ⟨500, []⟩) = none ∧
      llmRequestBASProxy (requestCompletion (Except.ok ⟨500, []⟩)) = []) :=
  ⟨c9_transport_failure_yields_no_events (Except.error "connect ECONNREFUSED") (fun _ hr => nomatch hr),
   c9_transport_failure_yields_no_events (Except.ok ⟨500, []⟩) (fun r hr => by cases hr; decide)⟩

/-- C10: once the class-static deployment cache holds a non-empty list,
every later `getDeployments` call — on any instance, with any
`resourceGroup` argument and whatever a fetch would now return — returns
that same cached list and issues no request. -/
theorem c10_cached_deployments_returned (cache : List Json) (h : cache ≠ [])
    (resourceGroup : Option String) (fetch : String → Option (List Json)) :
    getDeployments (some cache) resourceGroup fetch = (some cache, false) := by
  cases cache with
  | nil => exact absurd rfl h
  | cons a t => rfl

/-- C10 witness: a one-element cache is returned unchanged for two
different resource groups and two different fetch behaviors. -/
theorem c10_cached_deployments_returned_witness :
    getDeployments (some [Json.str "dep1"]) (some "team-a") (fun _ => some [Json.str "other"]) =
      (some [Json.str "dep1"], false) ∧
    getDeployments (some [Json.str "dep1"]) none (fun _ => none) = (some [Json.str "dep1"], false) :=
  ⟨c10_cached_deployments_returned [Json.str "dep1"] (List.cons_ne_nil _ _) (some "team-a") _,
   c10_cached_deployments_returned [Json.str "dep1"] (List.cons_ne_nil _ _) none _⟩

/-- C2 counterexample: a message with the unsupported role `developer`
is mapped to `null` and filtered out — the conversion succeeds with an
empty result instead of failing with a MappingError, contradicting the
claim. -/
theorem c2_counterexample_role_dropped :
    supportedRole "developer" = false ∧
    convertMessageParamToSAPMessages [⟨"developer", Sum.inl "hello"⟩] = Except.ok [] :=
  ⟨rfl, rfl⟩

/-- C2 (amended): a message whose role is outside the supported set
\x7buser, assistant, system, tool, function\x7d is silently dropped — the
conversion returns exactly what it returns for the list without that
message, and never raises for it. -/
theorem c2_unsupported_role_is_filtered (r : String) (content : String ⊕ List ContentPart)
    (ms : List InMessage) (h : supportedRole r = false) :
    convertMessageParamToSAPMessages (⟨r, content⟩ :: ms) = convertMessageParamToSAPMessages ms := by
  have hm : convertMessage ⟨r, content⟩ = Except.ok none := by
    unfold convertMessage
    rw [h]
    simp
  have e : convertAll (⟨r, content⟩ :: ms) =
      Except.bind (convertMessage ⟨r, content⟩)
        (fun h => Except.bind (convertAll ms) (fun t => Except.ok (h :: t))) := rfl
  have key : convertAll (⟨r, content⟩ :: ms) =
      Except.map (fun t => Option.none :: t) (convertAll ms) := by
    rw [e, hm]
    cases hc : convertAll ms <;> simp [Except.bind, Except.map]
  unfold convertMessageParamToSAPMessages
  rw [key]
  cases hc : convertAll ms <;> simp [Except.map]

/-- C2 witness: dropping a `developer` message in front of a `user`
message leaves exactly the conversion of the `user` message. -/
theorem c2_unsupported_role_is_filtered_witness :
    supportedRole "developer" = false ∧
    convertMessageParamToSAPMessages [⟨"developer", Sum.inl "hello"⟩, ⟨"user", Sum.inl "hi"⟩] =
      convertMessageParamToSAPMessages [⟨"user", Sum.inl "hi"⟩] :=
  ⟨rfl, c2_unsupported_role_is_filtered "developer" (Sum.inl "hello") [⟨"user", Sum.inl "hi"⟩] rfl⟩

/-- C4 counterexample: with a model whose cached `streamingSupported` is
false and a buffered response whose content is the empty string, the
truthiness guard `if (delta)` suppresses the event: zero events are
emitted, not the claimed exactly one. -/
theorem c4_counterexample_empty_content :
    streamingFlag [bufferedModel] "m-buffered" = false ∧
    createMessageEvents [bufferedModel] "m-buffered" [] (some "") = [] ∧
    (createMessageEvents [bufferedModel] "m-buffered" [] (some "")).length ≠ 1 :=
  ⟨rfl, rfl, by decide⟩

/-- C4 (amended): when the cached `streamingSupported` flag is false,
`createMessage` performs the buffered call and emits at most one
TextDeltaEvent; whenever the buffered content is non-empty it emits
exactly one event carrying that full content, never multiple partial
deltas. -/
theorem c4_buffered_at_most_one_event (models : List Model) (modelId : String)
    (streamDeltas : List (Option String)) (bufferedContent : Option String)
    (h : streamingFlag models modelId = false) :
    (createMessageEvents models modelId streamDeltas bufferedContent).length ≤ 1 ∧
    (∀ s, bufferedContent = some s → s ≠ "" →
      createMessageEvents models modelId streamDeltas bufferedContent = [ApiStreamEvent.text s]) := by
  unfold createMessageEvents
  rw [h]
  simp only [Bool.false_eq_true, if_false]
  constructor
  · cases bufferedContent with
    | none => simp [bufferedEvents]
    | some s => by_cases hs : s = "" <;> simp [bufferedEvents, hs]
  · intro s hs hne
    subst hs
    simp [bufferedEvents, hne]

/-- C4 witness: the concrete buffered model with content `Hello world`
yields the single full-content event. -/
theorem c4_buffered_at_most_one_event_witness :
    streamingFlag [bufferedModel] "m-buffered" = false ∧
    createMessageEvents [bufferedModel] "m-buffered" [] (some "Hello world") =
      [ApiStreamEvent.text "Hello world"] :=
  ⟨rfl, (c4_buffered_at_most_one_event [bufferedModel] "m-buffered" [] (some "Hello world") rfl).2
    "Hello world" rfl (by decide)⟩

/-- C5 counterexample: with providers `Banana` and `apple` the code's
`localeCompare` sort puts `apple` first, while case-sensitive
(code-point) ascending order would put `Banana` first: the output is not
sorted case-sensitively. -/
theorem c5_counterexample_not_codepoint_sorted :
    (getModelsFromSDK [rBanana, rApple]).map (fun m => m.provider) = ["apple", "Banana"] ∧
    sortedByProvider codepointLe (getModelsFromSDK [rBanana, rApple]) = false :=
  ⟨rfl, rfl⟩

/-- C5 (amended): the model list produced by the capability fetch is
sorted by provider name ascending under the locale-aware
`localeCompare` comparator — which compares letters case-insensitively
at its primary level — rather than in case-sensitive code-point order. -/
theorem c5_sorted_by_locale_comparator (resources : List ModelResource) :
    List.Sorted providerLe (getModelsFromSDK resources) := by
  unfold getModelsFromSDK
  exact List.sorted_insertionSort providerLe _

/-- A part list containing a part with an unknown tag always makes the
part conversion throw. -/
theorem convertParts_error_of_mem (tag : String) :
    ∀ parts : List ContentPart, ContentPart.other tag ∈ parts →
      ∃ e, convertParts parts = Except.error e := by
  intro parts hmem
  induction parts with
  | nil => cases hmem
  | cons p ps ih =>
    cases hmem with
    | head => exact ⟨"Unsupported message type: " ++ tag, rfl⟩
    | tail _ hmem2 =>
      obtain ⟨e, he⟩ := ih hmem2
      cases hp : convertPart p with
      | error e2 =>
        exact ⟨e2, by simp [convertParts, hp, Except.bind, Bind.bind]⟩
      | ok v =>
        exact ⟨e, by simp [convertParts, hp, he, Except.bind, Bind.bind]⟩

/-- If one message's conversion throws, mapping over any list containing
that message throws (with the first-thrown error). -/
theorem convertAll_error_of_error (m : InMessage)
    (hm : ∃ e, convertMessage m = Except.error e) :
    ∀ ms1 ms2 : List InMessage, ∃ e, convertAll (ms1 ++ m :: ms2) = Except.error e := by
  intro ms1
  induction ms1 with
  | nil =>
    intro ms2
    obtain ⟨e, he⟩ := hm
    exact ⟨e, by simp [convertAll, he, Except.bind, Bind.bind]⟩
  | cons x xs ih =>
    intro ms2
    cases hx : convertMessage x with
    | error e2 =>
      exact ⟨e2, by simp [convertAll, hx, Except.bind, Bind.bind]⟩
    | ok v =>
      obtain ⟨e, he⟩ := ih ms2
      exact ⟨e, by simp [convertAll, hx, he, Except.bind, Bind.bind]⟩

/-- C7: a message with a supported role whose content list contains a
part tagged outside \x7btext, image\x7d makes normalization throw
(`Unsupported message type`), wherever the message sits in the list, and
the `createMessage` call then produces an error and zero output events —
the part is never silently filtered out. -/
theorem c7_unknown_part_tag_fails (ms1 ms2 : List InMessage) (role tag : String)
    (parts : List ContentPart) (h1 : supportedRole role = true)
    (h2 : ContentPart.other tag ∈ parts) :
    (∃ e, convertMessageParamToSAPMessages (ms1 ++ ⟨role, Sum.inr parts⟩ :: ms2) = Except.error e) ∧
    (∀ models modelId streamDeltas bufferedContent, ∃ e,
      createMessageRun models modelId (ms1 ++ ⟨role, Sum.inr parts⟩ :: ms2)
        streamDeltas bufferedContent = Except.error e) := by
  have hm : ∃ e, convertMessage ⟨role, Sum.inr parts⟩ = Except.error e := by
    obtain ⟨e, he⟩ := convertParts_error_of_mem tag parts h2
    exact ⟨e, by simp [convertMessage, h1, he, Except.bind, Bind.bind]⟩
  obtain ⟨e, he⟩ := convertAll_error_of_error _ hm ms1 ms2
  refine ⟨⟨e, ?_⟩, fun models modelId streamDeltas bufferedContent => ⟨e, ?_⟩⟩ <;>
    simp [convertMessageParamToSAPMessages, createMessageRun, he, Except.map]

/-- C7 witness: a lone `user` message carrying a `tool_use`-tagged part
fails conversion and yields an error from the fully instantiated
`createMessage` run. -/
theorem c7_unknown_part_tag_fails_witness :
    supportedRole "user" = true ∧
    ContentPart.other "tool_use" ∈ [ContentPart.other "tool_use"] ∧
    (∃ e, convertMessageParamToSAPMessages
      ([] ++ (⟨"user", Sum.inr [ContentPart.other "tool_use"]⟩ : InMessage) :: []) =
        Except.error e) ∧
    (∃ e, createMessageRun [bufferedModel] "m-buffered"
      ([] ++ (⟨"user", Sum.inr [ContentPart.other "tool_use"]⟩ : InMessage) :: []) [] none =
        Except.error e) := by
  have base := c7_unknown_part_tag_fails [] [] "user" "tool_use"
    [ContentPart.other "tool_use"] rfl (List.mem_singleton.mpr rfl)
  exact ⟨rfl, List.mem_singleton.mpr rfl, base.1, base.2 [bufferedModel] "m-buffered" [] none⟩

/-- C8: an SSE body whose malformed-JSON line sits between two valid
data lines yields exactly the two valid text-delta events: the malformed
line is skipped (the parse failure is only logged) and never terminates
the stream, as the second conjunct states for every continuation. -/
theorem c8_malformed_line_skipped (bad : String)
    (h1 : strStartsWith bad "data: " = true)
    (h2 : parseJson (strTrim (strDrop bad 6)) = none)
    (h3 : strTrim (strDrop bad 6) ≠ "[DONE]") :
    processLines [c8Line1, bad, c8Line2, "data: [DONE]"] = [Json.str "Hello", Json.str "world"] ∧
    (∀ rest, processLines (bad :: rest) = processLines rest) := by
  have hskip : ∀ rest, processLines (bad :: rest) = processLines rest := by
    intro rest
    simp only [processLines, h1, if_true, beq_iff_eq]
    rw [if_neg h3, h2]
  have e1 : ∀ rest, processLines (c8Line1 :: rest) = Json.str "Hello" :: processLines rest :=
    fun _ => rfl
  have e2 : ∀ rest, processLines (c8Line2 :: rest) = Json.str "world" :: processLines rest :=
    fun _ => rfl
  have e3 : processLines ["data: [DONE]"] = [] := rfl
  refine ⟨?_, hskip⟩
  rw [e1, hskip, e2, e3]

/-- C8 witness: the body `Hello` / invalid JSON / `world` / `[DONE]`
produces exactly the two valid events. -/
theorem c8_malformed_line_skipped_witness :
    strStartsWith "data: not-json" "data: " = true ∧
    parseJson (strTrim (strDrop "data: not-json" 6)) = none ∧
    strTrim (strDrop "data: not-json" 6) ≠ "[DONE]" ∧
    processLines [c8Line1, "data: not-json", c8Line2, "data: [DONE]"] =
      [Json.str "Hello", Json.str "world"] :=
  ⟨rfl, rfl, by decide,
    (c8_malformed_line_skipped "data: not-json" rfl rfl (by decide)).1⟩
